import Mathlib

/-!
# Verification of the endpoint worker call sequencer (`src/api/src/endpoint.ts`)

Shallow embedding of the sequencing/correlation layer of `endpoint.ts`.
The TypeScript module owns a FIFO array `resolvers` of pending calls, a
`Worker` channel, and these operations:

* `toWorker(msg)` — pushes a resolver `{resolve, reject, msg}` onto
  `resolvers`, posts `resolvers[0].msg` iff the array now has length 1,
  awaits the promise, and in a `finally` block shifts the head and posts
  the new head's message if the array is non-empty;
* `endpointWorker.onmessage` — settles `resolvers[0]`: rejects with
  `event.data.err` when that field is truthy, otherwise resolves with
  `event.data.value`;
* `endpointWorker.onerror` / `onmessageerror` — `throw e`;
* `endOfRequest(id)` — posts `{cmd: "endOfRequest", id}` directly;
* `callHandler(...)` — a `toWorker` call whose result wraps the reply body
  in a `read` closure returning the body once and `undefined` thereafter.

The embedding is state-passing: mutation of `resolvers` becomes explicit
state, `postMessage` and promise settlements become output events, and JS
exceptions become `Except.error`.  Promises are identified by a `callId`
so that settlement events name the call they settle.
-/

/-- A JavaScript runtime value, as far as the sequencer inspects one:
the code only ever reads fields (`err`, `value`, `body`, ...) and tests
truthiness, so a small universe with an object reference case suffices. -/
inductive JSVal where
  | undefined
  | null
  | boolean (b : Bool)
  | number (n : Int)
  | string (s : String)
  | object (ref : Nat)
deriving DecidableEq, Repr

/-- JavaScript truthiness: `undefined`, `null`, `false`, `0` and `""` are
falsy; every other value (in particular every object) is truthy. -/
def JSVal.truthy : JSVal → Bool
  | .undefined => false
  | .null => false
  | .boolean b => b
  | .number n => n ≠ 0
  | .string s => s ≠ ""
  | .object _ => true

/-- One entry of the `resolvers` array.  The source stores
`{resolve, reject, msg}`; the two settlement functions are the identity of
the call's promise, embedded here as the `callId` that settlement output
events refer to. -/
structure Resolver (M : Type) where
  callId : Nat
  msg : M
deriving DecidableEq, Repr

/-- The mutable module state of `endpoint.ts`: the `resolvers` array
(`const resolvers: Resolver[] = []`). -/
structure SeqState (M : Type) where
  resolvers : List (Resolver M)
deriving DecidableEq, Repr

/-- Observable effects of a step: a `postMessage` on the worker channel,
or a settlement (`resolve` / `reject`) of a pending call's promise. -/
inductive Output (M : Type) where
  | post (msg : M)
  | resolve (callId : Nat) (value : JSVal)
  | reject (callId : Nat) (err : JSVal)
deriving DecidableEq, Repr

/-- A JavaScript exception escaping a handler. -/
inductive JSError where
  | typeError (msg : String)
  | rethrown (e : JSVal)
deriving DecidableEq, Repr

/-- The fields of `event.data` that `onmessage` reads.  A field absent
from the posted object reads as `undefined`. -/
structure ReplyData where
  err : JSVal
  value : JSVal
deriving DecidableEq, Repr

/-- `postMessage(resolvers[0].msg)` guarded by non-emptiness: the post
that both dispatch sites of the source perform on the head of the queue. -/
def headPost {M : Type} : List (Resolver M) → List (Output M)
  | [] => []
  | r :: _ => [Output.post r.msg]

/-- The synchronous part of `toWorker(msg)`: push `{resolve, reject, msg}`
onto `resolvers`, and `if (resolvers.length == 1)` post
`resolvers[0].msg`.  The push and the guarded post cannot throw, hence the
`Except` is always `ok`; the `Except` codomain records that every JS
statement of this function was modelled as possibly-throwing. -/
def toWorkerSync {M : Type} (cid : Nat) (msg : M) (s : SeqState M) :
    Except JSError (SeqState M × List (Output M)) :=
  let rs := s.resolvers ++ [{ callId := cid, msg := msg }]
  Except.ok (⟨rs⟩, if rs.length = 1 then headPost rs else [])

/-- The `endpointWorker.onmessage` handler.  `const resolver =
resolvers[0]` yields `undefined` on an empty array; the subsequent
`resolver.reject(e)` / `resolver.resolve(d.value)` then throws a
`TypeError`.  On a non-empty queue it settles the head: rejection with
`d.err` when that field is truthy, resolution with `d.value` otherwise. -/
def onmessage {M : Type} (d : ReplyData) (s : SeqState M) :
    Except JSError (List (Output M)) :=
  match s.resolvers with
  | [] => Except.error (JSError.typeError "resolver is undefined")
  | r :: _ =>
    if d.err.truthy then Except.ok [Output.reject r.callId d.err]
    else Except.ok [Output.resolve r.callId d.value]

/-- The `finally` block of `toWorker`, run as the settled call's
continuation: `resolvers.shift()` then, `if (resolvers.length != 0)`,
post `resolvers[0].msg`. -/
def awaitFinally {M : Type} (s : SeqState M) : SeqState M × List (Output M) :=
  let rs := s.resolvers.tail
  (⟨rs⟩, headPost rs)

/-- The settlement `onmessage` performs for head resolver `r` on reply
data `d`: reject with `d.err` if truthy, else resolve with `d.value`. -/
def settleOut {M : Type} (r : Resolver M) (d : ReplyData) : Output M :=
  if d.err.truthy then Output.reject r.callId d.err
  else Output.resolve r.callId d.value

/-- Processing one worker reply: the `onmessage` handler settles the head
promise, then (before any further channel event) the microtask containing
`toWorker`'s `finally` block runs, shifting the queue and dispatching the
next message.  If `onmessage` throws (empty queue) no promise was settled,
so no continuation runs and the error escapes. -/
def replyStep {M : Type} (d : ReplyData) (s : SeqState M) :
    Except JSError (SeqState M × List (Output M)) :=
  match onmessage d s with
  | Except.error err => Except.error err
  | Except.ok settled =>
    let (s', posts) := awaitFinally s
    Except.ok (s', settled ++ posts)

/-- The `endpointWorker.onerror` handler: `throw e`. -/
def onerror {M : Type} (e : JSVal) (_s : SeqState M) :
    Except JSError (SeqState M × List (Output M)) :=
  Except.error (JSError.rethrown e)

/-- The `endpointWorker.onmessageerror` handler: `throw e`. -/
def onmessageerror {M : Type} (e : JSVal) (_s : SeqState M) :
    Except JSError (SeqState M × List (Output M)) :=
  Except.error (JSError.rethrown e)

/-- An event arriving at the sequencer: either a caller invokes
`toWorker`, or a reply message is delivered on the channel. -/
inductive Event (M : Type) where
  | call (cid : Nat) (msg : M)
  | reply (d : ReplyData)
deriving DecidableEq, Repr

/-- One event-loop step. -/
def step {M : Type} (e : Event M) (s : SeqState M) :
    Except JSError (SeqState M × List (Output M)) :=
  match e with
  | Event.call cid msg => toWorkerSync cid msg s
  | Event.reply d => replyStep d s

/-- Run a sequence of events, accumulating outputs in order; a thrown
exception aborts the run. -/
def run {M : Type} : List (Event M) → SeqState M →
    Except JSError (SeqState M × List (Output M))
  | [], s => Except.ok (s, [])
  | e :: es, s =>
    match step e s with
    | Except.error err => Except.error err
    | Except.ok (s', outs) =>
      match run es s' with
      | Except.error err => Except.error err
      | Except.ok (s'', outs') => Except.ok (s'', outs ++ outs')

/-- The trace of `toWorker` invocations for the given resolvers. -/
def callEvents {M : Type} (cs : List (Resolver M)) : List (Event M) :=
  cs.map fun c => Event.call c.callId c.msg

/-- The trace of reply deliveries for the given reply payloads. -/
def replyEvents {M : Type} (ds : List ReplyData) : List (Event M) :=
  ds.map Event.reply

/-- Whether an output is a channel send. -/
def Output.isPost {M : Type} : Output M → Bool
  | .post _ => true
  | _ => false

/-- Number of `postMessage` calls among the outputs. -/
def postCount {M : Type} (outs : List (Output M)) : Nat :=
  (outs.filter Output.isPost).length

/-- The settlement outputs (resolve/reject events), in order. -/
def settleOutputs {M : Type} (outs : List (Output M)) : List (Output M) :=
  outs.filter fun o => !o.isPost

/-- The call a settlement output settles, if any. -/
def Output.settlesId {M : Type} : Output M → Option Nat
  | .post _ => none
  | .resolve cid _ => some cid
  | .reject cid _ => some cid

/-- Expected outputs of delivering replies `ds` against queue `l`: each
reply settles the current head and then posts the next head if one
remains. -/
def replyOutputs {M : Type} : List (Resolver M) → List ReplyData → List (Output M)
  | r :: l, d :: ds => settleOut r d :: (headPost l ++ replyOutputs l ds)
  | _, _ => []

/-! ## Run lemmas -/

/-- Running a concatenation of traces composes the runs. -/
theorem run_append {M : Type} (es₁ es₂ : List (Event M)) (s s₁ s₂ : SeqState M)
    (o₁ o₂ : List (Output M))
    (h₁ : run es₁ s = Except.ok (s₁, o₁)) (h₂ : run es₂ s₁ = Except.ok (s₂, o₂)) :
    run (es₁ ++ es₂) s = Except.ok (s₂, o₁ ++ o₂) := by
  induction es₁ generalizing s o₁ with
  | nil =>
    simp only [run] at h₁
    cases h₁
    simpa using h₂
  | cons e es ih =>
    simp only [List.cons_append, run] at h₁ ⊢
    cases hstep : step e s with
    | error err => simp [hstep] at h₁
    | ok p =>
      obtain ⟨s', outs⟩ := p
      simp only [hstep] at h₁ ⊢
      cases hrest : run es s' with
      | error err => simp [hrest] at h₁
      | ok q =>
        obtain ⟨s'', outs'⟩ := q
        simp only [hrest, Except.ok.injEq, Prod.mk.injEq] at h₁
        obtain ⟨h1a, h1b⟩ := h₁
        subst h1a
        subst h1b
        simp only [List.append_eq]
        rw [ih s' outs' hrest]
        simp [List.append_assoc]

/-- `toWorker` calls arriving at a non-empty queue append without posting. -/
theorem run_calls_nonempty {M : Type} (cs : List (Resolver M)) (r : Resolver M)
    (l : List (Resolver M)) :
    run (callEvents cs) ⟨r :: l⟩ = Except.ok (⟨r :: (l ++ cs)⟩, []) := by
  induction cs generalizing l with
  | nil => simp [callEvents, run]
  | cons c cs ih =>
    simp only [callEvents, List.map_cons, run, step, toWorkerSync]
    have hlen : (r :: l ++ [c]).length ≠ 1 := by
      simp [List.length_append]
    simp only [List.cons_append, if_neg hlen]
    have := ih (l ++ [c])
    simp only [callEvents] at this
    rw [this]
    simp

/-- A first `toWorker` call on the idle (empty-queue) sequencer posts its
message; the calls queued behind it post nothing. -/
theorem run_calls_empty {M : Type} (c : Resolver M) (cs : List (Resolver M)) :
    run (callEvents (c :: cs)) ⟨([] : List (Resolver M))⟩ =
      Except.ok (⟨c :: cs⟩, [Output.post c.msg]) := by
  simp only [callEvents, List.map_cons, run, step, toWorkerSync]
  simp only [List.nil_append, List.length_singleton, if_pos rfl, headPost]
  have := run_calls_nonempty cs c ([] : List (Resolver M))
  simp only [callEvents, List.nil_append] at this
  rw [this]
  simp

/-- Delivering a reply to a non-empty queue settles the head, removes it,
and posts the next head if one remains. -/
theorem replyStep_cons {M : Type} (d : ReplyData) (r : Resolver M)
    (l : List (Resolver M)) :
    replyStep d ⟨r :: l⟩ = Except.ok (⟨l⟩, settleOut r d :: headPost l) := by
  cases h : d.err.truthy <;>
    simp [replyStep, onmessage, awaitFinally, settleOut, h]

/-- Delivering `ds.length ≤ l.length` replies against queue `l` drops the
settled prefix and produces exactly `replyOutputs l ds`. -/
theorem run_replies {M : Type} (ds : List ReplyData) (l : List (Resolver M))
    (h : ds.length ≤ l.length) :
    run (replyEvents ds) ⟨l⟩ =
      Except.ok (⟨l.drop ds.length⟩, replyOutputs l ds) := by
  induction ds generalizing l with
  | nil => simp [replyEvents, run, replyOutputs]
  | cons d ds ih =>
    cases l with
    | nil => simp at h
    | cons r l =>
      simp only [replyEvents, List.map_cons, run, step, replyStep_cons]
      simp only [List.length_cons, Nat.succ_le_succ_iff] at h
      have := ih l h
      simp only [replyEvents] at this
      rw [this]
      simp [replyOutputs, replyOutputs]

/-- The settlements among `replyOutputs` pair queue entries with replies
in order. -/
theorem settleOutputs_replyOutputs {M : Type} (l : List (Resolver M))
    (ds : List ReplyData) :
    settleOutputs (replyOutputs l ds) =
      (l.zip ds).map fun p => settleOut p.1 p.2 := by
  induction l generalizing ds with
  | nil => simp [replyOutputs, settleOutputs]
  | cons r l ih =>
    cases ds with
    | nil => simp [replyOutputs, settleOutputs]
    | cons d ds =>
      simp only [replyOutputs, settleOutputs, List.filter_cons, List.filter_append]
      have hsettle : (!(settleOut r d).isPost) = true := by
        cases h : d.err.truthy <;> simp [settleOut, Output.isPost, h]
      rw [if_pos hsettle]
      have hposts : (headPost l).filter (fun o => !o.isPost) = [] := by
        cases l <;> simp [headPost, Output.isPost]
      rw [hposts]
      simp only [List.nil_append, List.zip_cons_cons, List.map_cons]
      rw [← ih ds]
      simp [settleOutputs]

/-- `settleOut` never produces a channel send. -/
theorem settleOut_isPost {M : Type} (r : Resolver M) (d : ReplyData) :
    (settleOut r d).isPost = false := by
  cases h : d.err.truthy <;> simp [settleOut, Output.isPost, h]

/-- Post counting distributes over concatenation of outputs. -/
theorem postCount_append {M : Type} (a b : List (Output M)) :
    postCount (a ++ b) = postCount a + postCount b := by
  simp [postCount, List.filter_append]

/-- The guarded head dispatch posts once iff the queue is non-empty. -/
theorem postCount_headPost {M : Type} (l : List (Resolver M)) :
    postCount (headPost l) = min l.length 1 := by
  cases l <;> simp [headPost, postCount, Output.isPost]

/-- Post count of `replyOutputs`: one per reply except the final reply
that empties the queue. -/
theorem postCount_replyOutputs {M : Type} (l : List (Resolver M))
    (ds : List ReplyData) (h : ds.length ≤ l.length) :
    postCount (replyOutputs l ds) = min ds.length (l.length - 1) := by
  induction l generalizing ds with
  | nil =>
    have hds : ds = [] := List.length_eq_zero.mp (Nat.le_zero.mp h)
    subst hds
    simp [replyOutputs, postCount]
  | cons r l ih =>
    cases ds with
    | nil => simp [replyOutputs, postCount]
    | cons d ds =>
      simp only [List.length_cons, Nat.succ_le_succ_iff] at h
      have hsplit : postCount (replyOutputs (r :: l) (d :: ds))
          = postCount (headPost l) + postCount (replyOutputs l ds) := by
        simp [replyOutputs, postCount, List.filter_cons, List.filter_append,
          settleOut_isPost]
      rw [hsplit, postCount_headPost, ih ds h]
      cases l with
      | nil =>
        have hds : ds = [] := List.length_eq_zero.mp (Nat.le_zero.mp h)
        subst hds
        simp
      | cons r' l' =>
        simp only [List.length_cons, Nat.add_sub_cancel]
        omega

/-! ## Concrete command payloads and ancillary operations -/

/-- The command payloads the module posts to the worker, one constructor
per `cmd` tag appearing in `endpoint.ts`. -/
inductive Cmd where
  | initWorker (id : Int)
  | readWorkerChannel
  | importEndpoint (path : String) (apiVersion : String) (version : Int)
  | activateEndpoint (path : String)
  | endOfRequest (id : Int)
  | callHandler (path : String) (apiVersion : String) (id : Int)
deriving DecidableEq, Repr

/-- `initWorker(id)`: a `toWorker` call carrying `{cmd: "initWorker", id}`. -/
def initWorker (cid : Nat) (id : Int) (s : SeqState Cmd) :
    Except JSError (SeqState Cmd × List (Output Cmd)) :=
  toWorkerSync cid (Cmd.initWorker id) s

/-- `readWorkerChannel()`: a `toWorker` call carrying
`{cmd: "readWorkerChannel"}`. -/
def readWorkerChannel (cid : Nat) (s : SeqState Cmd) :
    Except JSError (SeqState Cmd × List (Output Cmd)) :=
  toWorkerSync cid Cmd.readWorkerChannel s

/-- `importEndpoint(path, apiVersion, version)`: a `toWorker` call. -/
def importEndpoint (cid : Nat) (path apiVersion : String) (version : Int)
    (s : SeqState Cmd) : Except JSError (SeqState Cmd × List (Output Cmd)) :=
  toWorkerSync cid (Cmd.importEndpoint path apiVersion version) s

/-- `activateEndpoint(path)`: a `toWorker` call. -/
def activateEndpoint (cid : Nat) (path : String) (s : SeqState Cmd) :
    Except JSError (SeqState Cmd × List (Output Cmd)) :=
  toWorkerSync cid (Cmd.activateEndpoint path) s

/-- `endOfRequest(id)`: posts `{cmd: "endOfRequest", id}` directly on the
channel.  The function body is a single `postMessage`; it neither reads
nor writes `resolvers`, creates no promise, and returns synchronously. -/
def endOfRequest (id : Int) (s : SeqState Cmd) :
    SeqState Cmd × List (Output Cmd) :=
  (s, [Output.post (Cmd.endOfRequest id)])

/-- The reply value of a successful `callHandler` call, as the source
destructures it: `{ body?: number; status: number; headers: number }`
(an absent `body` reads as `undefined`). -/
structure HandlerResponse where
  body : Option Int
  status : Int
  headers : Int
deriving DecidableEq, Repr

/-- One invocation of the `read` closure returned by `callHandler`:
`const ret = body; body = undefined; return ret` — the pair is
(returned value, new captured `body`). -/
def readOnce (body : Option Int) : Option Int × Option Int :=
  (body, none)

/-- The captured `body` variable after `n` invocations of `read`,
starting from `res.body` as `callHandler` initialises it. -/
def readState (res : HandlerResponse) : Nat → Option Int
  | 0 => res.body
  | n + 1 => (readOnce (readState res n)).2

/-- The value returned by invocation number `n` of `read` (0-indexed). -/
def readResult (res : HandlerResponse) (n : Nat) : Option Int :=
  (readOnce (readState res n)).1

/-! ## Further output lemmas -/

/-- Settlement filtering distributes over concatenation. -/
theorem settleOutputs_append {M : Type} (a b : List (Output M)) :
    settleOutputs (a ++ b) = settleOutputs a ++ settleOutputs b := by
  simp [settleOutputs, List.filter_append]

/-- A head dispatch contains no settlement. -/
theorem settleOutputs_headPost {M : Type} (l : List (Resolver M)) :
    settleOutputs (headPost l) = [] := by
  cases l <;> simp [settleOutputs, headPost, Output.isPost]

/-- A settlement output names the call it settles: the head resolver. -/
theorem settlesId_settleOut {M : Type} (r : Resolver M) (d : ReplyData) :
    (settleOut r d).settlesId = some r.callId := by
  cases h : d.err.truthy <;> simp [settleOut, Output.settlesId, h]

/-- A complete batch of calls followed by matching replies runs without
error, empties the queue, and produces the initial dispatch followed by
`replyOutputs`. -/
theorem run_calls_then_replies {M : Type} (cs : List (Resolver M))
    (ds : List ReplyData) (h : ds.length = cs.length) :
    run (callEvents cs ++ replyEvents ds) ⟨([] : List (Resolver M))⟩ =
      Except.ok (⟨([] : List (Resolver M))⟩, headPost cs ++ replyOutputs cs ds) := by
  cases cs with
  | nil =>
    have hds : ds = [] := List.length_eq_zero.mp (by simpa using h)
    subst hds
    simp [callEvents, replyEvents, run, headPost, replyOutputs]
  | cons c cs =>
    have hr := run_replies ds (c :: cs) (le_of_eq h)
    rw [h, List.drop_length _] at hr
    exact run_append _ _ _ _ _ _ _ (run_calls_empty c cs) hr

/-! ## Claim theorems -/

/-- **C1** (single-flight dispatch): `toWorker` posts a message on
enqueue if and only if `resolvers` was empty immediately before the
enqueue; a batch of concurrent calls issued before any reply arrives
produces exactly one outbound post (the first request); and delivering
`ds` replies after such a batch yields exactly one further post per
processed reply while queued calls remain — `1 + min ds.length cs.length`
posts in total for calls `c :: cs` — so at most one un-replied request is
ever outstanding at the worker. -/
theorem C1_single_flight {M : Type} :
    (∀ (s : SeqState M) (cid : Nat) (msg : M),
        toWorkerSync cid msg s =
          Except.ok (⟨s.resolvers ++ [⟨cid, msg⟩]⟩,
            if s.resolvers.isEmpty then [Output.post msg] else [])) ∧
    (∀ (c : Resolver M) (cs : List (Resolver M)),
        run (callEvents (c :: cs)) ⟨([] : List (Resolver M))⟩ =
          Except.ok (⟨c :: cs⟩, [Output.post c.msg])) ∧
    (∀ (c : Resolver M) (cs : List (Resolver M)) (ds : List ReplyData),
        ds.length ≤ cs.length + 1 →
        ∃ outs, run (callEvents (c :: cs) ++ replyEvents ds)
            ⟨([] : List (Resolver M))⟩ =
          Except.ok (⟨(c :: cs).drop ds.length⟩, outs) ∧
          postCount outs = 1 + min ds.length cs.length) := by
  refine ⟨?_, ?_, ?_⟩
  · intro s cid msg
    cases hs : s.resolvers with
    | nil => simp [toWorkerSync, hs, headPost]
    | cons r l =>
      simp only [toWorkerSync, hs, List.cons_append, List.isEmpty_cons]
      rw [if_neg (by simp), if_neg (by simp)]
  · intro c cs
    exact run_calls_empty c cs
  · intro c cs ds h
    have hlen : ds.length ≤ (c :: cs).length := by
      simpa using h
    refine ⟨[Output.post c.msg] ++ replyOutputs (c :: cs) ds, ?_, ?_⟩
    · exact run_append _ _ _ _ _ _ _ (run_calls_empty c cs)
        (run_replies ds (c :: cs) hlen)
    · rw [postCount_append, postCount_replyOutputs _ _ hlen]
      simp [postCount, Output.isPost]

/-- Witness for C1: two calls then one reply — the second post happens
only when the reply is processed. -/
theorem C1_single_flight_witness :
    ∃ outs, run (callEvents [⟨0, (10 : Int)⟩, ⟨1, 11⟩] ++
        replyEvents [⟨JSVal.undefined, JSVal.number 7⟩])
        ⟨([] : List (Resolver Int))⟩ =
      Except.ok (⟨[⟨1, 11⟩]⟩, outs) ∧ postCount outs = 1 + min 1 1 :=
  C1_single_flight.2.2 ⟨0, (10 : Int)⟩ [⟨1, 11⟩]
    [⟨JSVal.undefined, JSVal.number 7⟩] (by decide)

/-- **C2** (FIFO correlation): submitting calls `cs` in that order and
then delivering replies `ds` in the same order settles each call with
exactly the outcome encoded by its reply — the settlement outputs of the
whole run are the in-order zip of calls with replies, each entry being
the rejection with the reply's truthy `err` or the resolution with its
`value`. -/
theorem C2_fifo_correlation {M : Type} (cs : List (Resolver M))
    (ds : List ReplyData) (h : ds.length = cs.length) :
    ∃ outs, run (callEvents cs ++ replyEvents ds)
        ⟨([] : List (Resolver M))⟩ =
      Except.ok (⟨([] : List (Resolver M))⟩, outs) ∧
      settleOutputs outs = (cs.zip ds).map fun p => settleOut p.1 p.2 := by
  refine ⟨headPost cs ++ replyOutputs cs ds, run_calls_then_replies cs ds h, ?_⟩
  rw [settleOutputs_append, settleOutputs_headPost, settleOutputs_replyOutputs]
  simp

/-- Witness for C2: a success reply then an error reply settle the first
and second call respectively, in order. -/
theorem C2_fifo_correlation_witness :
    ∃ outs, run (callEvents [⟨0, (10 : Int)⟩, ⟨1, 11⟩] ++
        replyEvents [⟨JSVal.undefined, JSVal.number 1⟩,
          ⟨JSVal.string "E1", JSVal.undefined⟩])
        ⟨([] : List (Resolver Int))⟩ =
      Except.ok (⟨([] : List (Resolver Int))⟩, outs) ∧
      settleOutputs outs =
        (([⟨0, (10 : Int)⟩, ⟨1, 11⟩] : List (Resolver Int)).zip
          [⟨JSVal.undefined, JSVal.number 1⟩,
            ⟨JSVal.string "E1", JSVal.undefined⟩]).map
          fun p => settleOut p.1 p.2 :=
  C2_fifo_correlation [⟨0, (10 : Int)⟩, ⟨1, 11⟩]
    [⟨JSVal.undefined, JSVal.number 1⟩, ⟨JSVal.string "E1", JSVal.undefined⟩]
    (by decide)

/-- **C3** (error/success fidelity): with a non-empty queue, a reply
whose `err` field is truthy (carries an error indicator) makes the
handler reject the head call with that error — its only settlement is
that rejection, so the call is not resolved; a reply whose `err` field is
not truthy resolves the head call with the reply's `value`. -/
theorem C3_error_success_fidelity {M : Type} (d : ReplyData)
    (r : Resolver M) (l : List (Resolver M)) :
    (d.err.truthy = true →
      onmessage d ⟨r :: l⟩ = Except.ok [Output.reject r.callId d.err]) ∧
    (d.err.truthy = false →
      onmessage d ⟨r :: l⟩ = Except.ok [Output.resolve r.callId d.value]) := by
  constructor <;> intro h <;> simp [onmessage, h]

/-- Witness for C3: an error reply rejects, a plain reply resolves. -/
theorem C3_error_success_fidelity_witness :
    onmessage ⟨JSVal.string "E1", JSVal.undefined⟩
        (⟨[⟨0, (10 : Int)⟩]⟩ : SeqState Int) =
      Except.ok [Output.reject 0 (JSVal.string "E1")] ∧
    onmessage ⟨JSVal.undefined, JSVal.number 5⟩
        (⟨[⟨1, (11 : Int)⟩]⟩ : SeqState Int) =
      Except.ok [Output.resolve 1 (JSVal.number 5)] :=
  ⟨(C3_error_success_fidelity ⟨JSVal.string "E1", JSVal.undefined⟩
      ⟨0, (10 : Int)⟩ []).1 (by decide),
   (C3_error_success_fidelity ⟨JSVal.undefined, JSVal.number 5⟩
      ⟨1, (11 : Int)⟩ []).2 (by decide)⟩

/-- **C4** (protocol violation on empty queue): a reply delivered while
`resolvers` is empty makes the handler throw — `resolvers[0]` is
`undefined`, so the settlement call raises a `TypeError` — and the whole
reply step aborts with that error: the reply settles no call and is not
silently dropped. -/
theorem C4_reply_on_empty_queue {M : Type} (d : ReplyData) :
    replyStep d (⟨([] : List (Resolver M))⟩ : SeqState M) =
      Except.error (JSError.typeError "resolver is undefined") ∧
    onmessage d (⟨([] : List (Resolver M))⟩ : SeqState M) =
      Except.error (JSError.typeError "resolver is undefined") :=
  ⟨rfl, rfl⟩

/-- In the zipped settlement list of a complete run, a call identity is
settled as often as it occurs among the submitted calls. -/
theorem count_settlements {M : Type} (cs : List (Resolver M))
    (ds : List ReplyData) (cid : Nat) (h : ds.length = cs.length) :
    (((cs.zip ds).map fun p => settleOut p.1 p.2).countP
        fun o => o.settlesId == some cid)
      = (cs.map Resolver.callId).count cid := by
  induction cs generalizing ds with
  | nil => simp
  | cons c cs ih =>
    cases ds with
    | nil => simp at h
    | cons d ds =>
      have h' : ds.length = cs.length := by simpa using h
      simp only [List.zip_cons_cons, List.map_cons, List.countP_cons,
        List.count_cons, settlesId_settleOut]
      rw [ih ds h']
      by_cases hc : c.callId = cid <;> simp [hc]

/-- **C5** (exactly-one settlement, no cross-talk): a reply step on a
non-empty queue settles exactly the head call — its settlement outputs
are the single settlement of the head, so no other pending call is
settled or altered; and over a complete run with distinct call identities
and one reply per call, every call's handle is settled exactly once. -/
theorem C5_exactly_once_no_crosstalk {M : Type} :
    (∀ (d : ReplyData) (r : Resolver M) (l : List (Resolver M)),
        replyStep d ⟨r :: l⟩ =
          Except.ok (⟨l⟩, settleOut r d :: headPost l) ∧
        settleOutputs (settleOut r d :: headPost l) = [settleOut r d]) ∧
    (∀ (cs : List (Resolver M)) (ds : List ReplyData),
        (cs.map Resolver.callId).Nodup → ds.length = cs.length →
        ∃ outs, run (callEvents cs ++ replyEvents ds)
            ⟨([] : List (Resolver M))⟩ =
          Except.ok (⟨([] : List (Resolver M))⟩, outs) ∧
          ∀ r ∈ cs, ((settleOutputs outs).countP
              fun o => o.settlesId == some r.callId) = 1) := by
  constructor
  · intro d r l
    refine ⟨replyStep_cons d r l, ?_⟩
    have hpost : ∀ m : M, (Output.post m).isPost = true := fun _ => rfl
    cases l <;> simp [settleOutputs, headPost, settleOut_isPost, hpost]
  · intro cs ds hnd h
    refine ⟨headPost cs ++ replyOutputs cs ds, run_calls_then_replies cs ds h, ?_⟩
    intro r hr
    rw [settleOutputs_append, settleOutputs_headPost, settleOutputs_replyOutputs]
    simp only [List.nil_append]
    rw [count_settlements cs ds r.callId h]
    exact List.count_eq_one_of_mem hnd (List.mem_map_of_mem Resolver.callId hr)

/-- Witness for C5: two distinct calls, two replies, each settled once. -/
theorem C5_exactly_once_no_crosstalk_witness :
    ∃ outs, run (callEvents ([⟨0, (10 : Int)⟩, ⟨1, 11⟩] : List (Resolver Int)) ++
        replyEvents [⟨JSVal.undefined, JSVal.number 1⟩,
          ⟨JSVal.string "E1", JSVal.undefined⟩])
        ⟨([] : List (Resolver Int))⟩ =
      Except.ok (⟨([] : List (Resolver Int))⟩, outs) ∧
      ∀ r ∈ ([⟨0, (10 : Int)⟩, ⟨1, 11⟩] : List (Resolver Int)),
        ((settleOutputs outs).countP
          fun o => o.settlesId == some r.callId) = 1 :=
  C5_exactly_once_no_crosstalk.2 [⟨0, (10 : Int)⟩, ⟨1, 11⟩]
    [⟨JSVal.undefined, JSVal.number 1⟩, ⟨JSVal.string "E1", JSVal.undefined⟩]
    (by decide) (by decide)

/-- **C6** (no synchronous failure from `call`): for every payload and
every queue state the synchronous part of `toWorker` returns normally —
never `Except.error` — and every rejection produced by reply processing
carries exactly the `err` value the worker attached to that reply, so a
call can fail only through its handle with the worker's error. -/
theorem C6_no_sync_failure {M : Type} :
    (∀ (cid : Nat) (msg : M) (s : SeqState M),
        ∃ s' outs, toWorkerSync cid msg s = Except.ok (s', outs)) ∧
    (∀ (d : ReplyData) (s s' : SeqState M) (outs : List (Output M)),
        replyStep d s = Except.ok (s', outs) →
        ∀ cid e, Output.reject cid e ∈ outs → e = d.err) := by
  constructor
  · intro cid msg s
    exact ⟨_, _, rfl⟩
  · intro d s s' outs hrun cid e hmem
    obtain ⟨rs⟩ := s
    cases rs with
    | nil => simp [replyStep, onmessage] at hrun
    | cons r l =>
      rw [replyStep_cons] at hrun
      have hpair := Except.ok.inj hrun
      injection hpair with h1 h2
      subst h2
      rcases List.mem_cons.mp hmem with hhd | htl
      · by_cases ht : d.err.truthy
        · have := hhd
          simp only [settleOut, ht, if_true] at this
          exact (Output.reject.injEq .. ▸ this).2
        · simp [settleOut, ht] at hhd
      · cases l with
        | nil => simp [headPost] at htl
        | cons r' l' => simp [headPost] at htl

/-- Witness for C6: the synchronous step succeeds on a concrete call, and
a concrete rejection carries the reply's `err`. -/
theorem C6_no_sync_failure_witness :
    (∃ s' outs, toWorkerSync 0 (42 : Int) (⟨([] : List (Resolver Int))⟩) =
      Except.ok (s', outs)) ∧
    JSVal.string "E1" = (⟨JSVal.string "E1", JSVal.undefined⟩ : ReplyData).err :=
  ⟨C6_no_sync_failure.1 0 42 ⟨[]⟩,
   C6_no_sync_failure.2 ⟨JSVal.string "E1", JSVal.undefined⟩
     ⟨[⟨7, (5 : Int)⟩]⟩ ⟨[]⟩ [Output.reject 7 (JSVal.string "E1")]
     rfl 7 (JSVal.string "E1") (by simp)⟩

/-- **C7** (fire-and-forget bypasses the queue): `endOfRequest id` posts
`{cmd: "endOfRequest", id}` directly to the channel as its only output
and leaves `resolvers` exactly as it was — it enqueues no pending call,
creates no result handle, and returns synchronously without awaiting any
reply. -/
theorem C7_end_of_request_bypasses_queue (id : Int) (s : SeqState Cmd) :
    endOfRequest id s = (s, [Output.post (Cmd.endOfRequest id)]) ∧
    (endOfRequest id s).1.resolvers = s.resolvers :=
  ⟨rfl, rfl⟩

/-- **C8** (unsolicited channel errors are fatal): the `onerror` and
`onmessageerror` handlers re-raise their event as an escaping error; the
step never returns normally, so it produces no settlement and touches no
pending call. -/
theorem C8_channel_errors_fatal {M : Type} (e : JSVal) (s : SeqState M) :
    onerror e s = Except.error (JSError.rethrown e) ∧
    onmessageerror e s = Except.error (JSError.rethrown e) ∧
    (onerror e s).isOk = false ∧
    (onmessageerror e s).isOk = false :=
  ⟨rfl, rfl, rfl, rfl⟩

/-- **C9** (two-phase body read): for the object `callHandler` builds
from a successful reply, invocation number `0` of `read` returns the
`body` the reply carried, and every subsequent invocation returns
`undefined`. -/
theorem C9_two_phase_read (res : HandlerResponse) (n : Nat) :
    readResult res 0 = res.body ∧ readResult res (n + 1) = none :=
  ⟨rfl, rfl⟩

/-- **C10** (truthiness error discriminator): the handler branches on the
JavaScript truthiness of `err`, so a reply whose `err` field is present
(not `undefined`) but falsy — for example `0`, `""`, `null` or `false` —
resolves the head call with the reply's `value` instead of rejecting,
even though an error field was attached. -/
theorem C10_falsy_err_resolves {M : Type} (d : ReplyData) (r : Resolver M)
    (l : List (Resolver M)) (_hpresent : d.err ≠ JSVal.undefined)
    (hfalsy : d.err.truthy = false) :
    onmessage d ⟨r :: l⟩ = Except.ok [Output.resolve r.callId d.value] := by
  simp [onmessage, hfalsy]

/-- Witness for C10: `err = 0` is present but falsy, and resolves. -/
theorem C10_falsy_err_resolves_witness :
    onmessage ⟨JSVal.number 0, JSVal.number 9⟩
        (⟨[⟨0, (10 : Int)⟩]⟩ : SeqState Int) =
      Except.ok [Output.resolve 0 (JSVal.number 9)] :=
  C10_falsy_err_resolves ⟨JSVal.number 0, JSVal.number 9⟩ ⟨0, (10 : Int)⟩ []
    (by decide) (by decide)
